import Mathlib

/-!
# Verification of the SIH2025 timetable scheduler

The repository is a single Python file containing four near-duplicate
CP-SAT timetabling scripts (called v1..v4 below, in source order).
v2, v3 and v4 share the boolean decision grid `x[c][t][r]` ("course `c`
is scheduled at time slot `t` in room `r`"), built over
`total_slots = days * slots_per_day` slots.  This file embeds the data
model, the constraint sets emitted by each script, the v4 decoding /
rendering loop, the v4 output branching on the solver status, and the
v4 model-construction (input lookup) phase, and proves the testable
properties stated in the specification against them.
-/

namespace SIH

/-- The problem data consumed by the constraint model, abstracted to
index spaces exactly as the scripts do (`course_indices`,
`room_indices`, `time_slots` are `range` objects over list lengths).
Faculty are kept as their identifying strings because the scripts only
ever compare faculty names for equality (`faculty[courses[c]] == f`).
`unavail` is the `faculty_unavailability` dict, total with default `[]`
(a faculty absent from the dict simply contributes no constraint);
`shared` is the `shared_students` pair list, already resolved to course
indices (`courses.index(...)`); `minLec` is `course_min_lectures`. -/
structure Instance where
  days : Nat
  slotsPerDay : Nat
  nRooms : Nat
  nCourses : Nat
  facultyOf : Nat → String
  unavail : String → List Nat
  shared : List (Nat × Nat)
  minLec : Nat → Nat

/-- `total_slots = days * slots_per_day`. -/
def totalSlots (inst : Instance) : Nat := inst.days * inst.slotsPerDay

/-- The value of a 0/1 CP-SAT boolean variable: `1` if set, else `0`.
Used to translate `AddAtMostOne` and linear sums over the grid. -/
def oneHot (b : Bool) : Nat := if b then 1 else 0

/-- An assignment of the decision grid: `X c t r = true` iff course `c`
is scheduled at slot `t` in room `r`.  Kept total over `Nat` indices;
the constraints only ever inspect in-range cells, mirroring the fact
that the scripts only create variables for in-range `(c, t, r)`. -/
abbrev Assignment := Nat → Nat → Nat → Bool

/-- v2/v3/v4 constraint 1, room exclusivity:
`for t: for r: model.AddAtMostOne(x[c, t, r] for c in course_indices)`. -/
def RoomExcl (inst : Instance) (X : Assignment) : Prop :=
  ∀ t < totalSlots inst, ∀ r < inst.nRooms,
    (∑ c ∈ Finset.range inst.nCourses, oneHot (X c t r)) ≤ 1

/-- v2 constraint 3 / v3,v4 constraint 2, one room per course per slot:
`for c: for t: model.AddAtMostOne(x[c, t, r] for r in room_indices)`. -/
def OneRoomPerSlot (inst : Instance) (X : Assignment) : Prop :=
  ∀ c < inst.nCourses, ∀ t < totalSlots inst,
    (∑ r ∈ Finset.range inst.nRooms, oneHot (X c t r)) ≤ 1

/-- v2 constraint 4 / v3,v4 constraint 3, faculty exclusivity:
`for t: for f in set(faculty.values()):`
`  relevant_courses = [c for c in course_indices if faculty[courses[c]] == f]`
`  model.AddAtMostOne(x[c, t, r] for c in relevant_courses for r in room_indices)`.
The set of faculty values is exactly the image of `facultyOf` over the
course indices, so we quantify over a representative course `c0`. -/
def FacultyExcl (inst : Instance) (X : Assignment) : Prop :=
  ∀ t < totalSlots inst, ∀ c0 < inst.nCourses,
    (∑ c ∈ (Finset.range inst.nCourses).filter
        (fun c => inst.facultyOf c = inst.facultyOf c0),
      ∑ r ∈ Finset.range inst.nRooms, oneHot (X c t r)) ≤ 1

/-- v2 constraint 5 / v3 constraint 4, faculty unavailability:
`for c: f_name = faculty[courses[c]]`
`  if f_name in faculty_unavailability:`
`    for t in faculty_unavailability[f_name]: for r: model.Add(x[c, t, r] == 0)`.
Omitted from the v4 constraint set (v4 declares no unavailability data). -/
def UnavailOk (inst : Instance) (X : Assignment) : Prop :=
  ∀ c < inst.nCourses, ∀ t ∈ inst.unavail (inst.facultyOf c),
    ∀ r < inst.nRooms, X c t r = false

/-- v2 constraint 6 / v3 constraint 5 / v4 constraint 4, shared students:
`for (course1, course2) in shared_students: i = courses.index(course1); j = ...`
`  for t: model.Add(sum(x[i,t,r1] for r1) + sum(x[j,t,r2] for r2) <= 1)`. -/
def SharedOk (inst : Instance) (X : Assignment) : Prop :=
  ∀ p ∈ inst.shared, ∀ t < totalSlots inst,
    (∑ r ∈ Finset.range inst.nRooms, oneHot (X p.1 t r)) +
      (∑ r ∈ Finset.range inst.nRooms, oneHot (X p.2 t r)) ≤ 1

/-- v3 constraint 6 / v4 constraint 5, minimum lectures:
`for c: model.Add(sum(x[c,t,r] for t in time_slots for r in room_indices)`
`  >= course_min_lectures[courses[c]])`. -/
def MinLecOk (inst : Instance) (X : Assignment) : Prop :=
  ∀ c < inst.nCourses,
    inst.minLec c ≤
      ∑ t ∈ Finset.range (totalSlots inst),
        ∑ r ∈ Finset.range inst.nRooms, oneHot (X c t r)

/-- v2 constraint 2, every slot used:
`for t: model.Add(sum(x[c,t,r] for c for r) >= 1)`.  Unique to v2. -/
def EverySlotUsed (inst : Instance) (X : Assignment) : Prop :=
  ∀ t < totalSlots inst,
    1 ≤ ∑ c ∈ Finset.range inst.nCourses,
          ∑ r ∈ Finset.range inst.nRooms, oneHot (X c t r)

/-- The full v2 constraint set, in source order (lines 143-181). -/
def SatisfiesV2 (inst : Instance) (X : Assignment) : Prop :=
  RoomExcl inst X ∧ EverySlotUsed inst X ∧ OneRoomPerSlot inst X ∧
    FacultyExcl inst X ∧ UnavailOk inst X ∧ SharedOk inst X

/-- The full v3 constraint set, in source order (lines 309-350). -/
def SatisfiesV3 (inst : Instance) (X : Assignment) : Prop :=
  RoomExcl inst X ∧ OneRoomPerSlot inst X ∧ FacultyExcl inst X ∧
    UnavailOk inst X ∧ SharedOk inst X ∧ MinLecOk inst X

/-- The full v4 constraint set, in source order (lines 475-508).
Unlike v3, it contains no faculty-unavailability constraint. -/
def SatisfiesV4 (inst : Instance) (X : Assignment) : Prop :=
  RoomExcl inst X ∧ OneRoomPerSlot inst X ∧ FacultyExcl inst X ∧
    SharedOk inst X ∧ MinLecOk inst X

instance (inst : Instance) (X : Assignment) : Decidable (SatisfiesV2 inst X) := by
  unfold SatisfiesV2 RoomExcl EverySlotUsed OneRoomPerSlot FacultyExcl UnavailOk SharedOk
  exact inferInstance

instance (inst : Instance) (X : Assignment) : Decidable (SatisfiesV3 inst X) := by
  unfold SatisfiesV3 RoomExcl OneRoomPerSlot FacultyExcl UnavailOk SharedOk MinLecOk
  exact inferInstance

instance (inst : Instance) (X : Assignment) : Decidable (SatisfiesV4 inst X) := by
  unfold SatisfiesV4 RoomExcl OneRoomPerSlot FacultyExcl SharedOk MinLecOk
  exact inferInstance

/-- A tiny instance used to witness the generic v4 theorems:
one faculty teaching two conflicting courses, two slots, two rooms. -/
def instW : Instance where
  days := 1
  slotsPerDay := 2
  nRooms := 2
  nCourses := 2
  facultyOf := fun _ => "Dr.W"
  unavail := fun _ => []
  shared := [(0, 1)]
  minLec := fun _ => 1

/-- A satisfying assignment for `instW`: course 0 at (slot 0, room 0),
course 1 at (slot 1, room 1). -/
def XW : Assignment := fun c t r =>
  (c == 0 && t == 0 && r == 0) || (c == 1 && t == 1 && r == 1)

example : SatisfiesV4 instW XW := by decide

/-- A tiny instance used to witness the v3 theorems: two courses with
distinct faculties, the first faculty unavailable at slot 0. -/
def instWu : Instance where
  days := 1
  slotsPerDay := 2
  nRooms := 2
  nCourses := 2
  facultyOf := fun c => if c == 0 then "Dr.U" else "Dr.V"
  unavail := fun f => if f == "Dr.U" then [0] else []
  shared := [(0, 1)]
  minLec := fun _ => 1

/-- A satisfying assignment for `instWu`: course 0 at (slot 1, room 0),
course 1 at (slot 0, room 1). -/
def XWu : Assignment := fun c t r =>
  (c == 0 && t == 1 && r == 0) || (c == 1 && t == 0 && r == 1)

example : SatisfiesV3 instWu XWu := by decide

/-! ## Counting helpers

`AddAtMostOne` and the linear sums of the model are 0/1 sums; these
lemmas extract the pointwise consequences used by the invariants. -/

lemma oneHot_le_sum {α : Type} {s : Finset α} {g : α → Bool} {a : α}
    (ha : a ∈ s) : oneHot (g a) ≤ ∑ x ∈ s, oneHot (g x) :=
  Finset.single_le_sum (fun i _ => Nat.zero_le (oneHot (g i))) ha

/-- A 0/1 sum bounded by 1 cannot have two distinct set members. -/
lemma sum_oneHot_pair_le {α : Type} [DecidableEq α] {s : Finset α} {g : α → Bool}
    (h : (∑ x ∈ s, oneHot (g x)) ≤ 1) {a b : α} (ha : a ∈ s) (hb : b ∈ s)
    (hab : a ≠ b) (hga : g a = true) : g b = false := by
  by_contra hgb
  have hgb' : g b = true := by
    cases hb' : g b with
    | false => exact absurd hb' hgb
    | true => rfl
  have hpair : (∑ x ∈ ({a, b} : Finset α), oneHot (g x)) = 2 := by
    rw [Finset.sum_pair hab, hga, hgb']
    rfl
  have hsub : ({a, b} : Finset α) ⊆ s := by
    intro x hx
    rcases Finset.mem_insert.mp hx with h1 | h2
    · exact h1 ▸ ha
    · exact (Finset.mem_singleton.mp h2) ▸ hb
  have hle : (∑ x ∈ ({a, b} : Finset α), oneHot (g x)) ≤ ∑ x ∈ s, oneHot (g x) :=
    Finset.sum_le_sum_of_subset hsub
  omega

/-- A 0/1 sum counts the true cells. -/
lemma sum_oneHot_eq_card {α : Type} (s : Finset α) (g : α → Bool) :
    (∑ x ∈ s, oneHot (g x)) = (s.filter fun x => g x = true).card := by
  rw [Finset.card_filter]
  refine Finset.sum_congr rfl fun x _ => ?_
  cases hx : g x <;> simp [oneHot, hx]

/-- A double 0/1 sum collapses to a sum over the product of the index sets. -/
lemma sum_sum_eq_sum_product {α β : Type} {s : Finset α} {u : Finset β}
    (g : α → β → Bool) :
    (∑ a ∈ s, ∑ b ∈ u, oneHot (g a b)) = ∑ q ∈ s ×ˢ u, oneHot (g q.1 q.2) := by
  rw [Finset.sum_product]

/-! ## Invariants of solved assignments -/

/-- C1: For every assignment satisfying the v3 model and every faculty
member `f` with a declared unavailable slot set, every slot `s` in that
set, and every room `r`, every course taught by `f` has `X c s r = false`:
no lecture of `f`'s courses is ever scheduled in one of `f`'s
unavailable slots. -/
theorem facultyUnavailabilityRespected (inst : Instance) (X : Assignment)
    (h : SatisfiesV3 inst X) :
    ∀ f : String, ∀ c < inst.nCourses, inst.facultyOf c = f →
      ∀ s ∈ inst.unavail f, ∀ r < inst.nRooms, X c s r = false := by
  intro f c hc hf s hs r hr
  subst hf
  exact h.2.2.2.1 c hc s hs r hr

theorem facultyUnavailabilityRespected_witness :
    SatisfiesV3 instWu XWu ∧ XWu 0 0 0 = false ∧ XWu 0 0 1 = false := by
  refine ⟨by decide, ?_, ?_⟩
  · exact facultyUnavailabilityRespected instWu XWu (by decide) "Dr.U" 0
      (by decide) (by decide) 0 (by decide) 0 (by decide)
  · exact facultyUnavailabilityRespected instWu XWu (by decide) "Dr.U" 0
      (by decide) (by decide) 0 (by decide) 1 (by decide)

/-- C3: Room exclusivity in the v4 model: for every slot `t` and room
`r`, at most one course occupies `(t, r)`, and in particular no two
distinct courses occupy the same (slot, room) pair. -/
theorem roomExclusivity (inst : Instance) (X : Assignment)
    (h : SatisfiesV4 inst X) :
    ∀ t < totalSlots inst, ∀ r < inst.nRooms,
      (((Finset.range inst.nCourses).filter fun c => X c t r = true).card ≤ 1) ∧
      (∀ c1 < inst.nCourses, ∀ c2 < inst.nCourses, c1 ≠ c2 →
        X c1 t r = true → X c2 t r = false) := by
  intro t ht r hr
  have hcon := h.1 t ht r hr
  constructor
  · rw [← sum_oneHot_eq_card]
    exact hcon
  · intro c1 hc1 c2 hc2 hne hX
    exact sum_oneHot_pair_le (g := fun c => X c t r) hcon
      (Finset.mem_range.mpr hc1) (Finset.mem_range.mpr hc2) hne hX

theorem roomExclusivity_witness :
    SatisfiesV4 instW XW ∧ XW 1 0 0 = false := by
  refine ⟨by decide, ?_⟩
  exact (roomExclusivity instW XW (by decide) 0 (by decide) 0 (by decide)).2
    0 (by decide) 1 (by decide) (by decide) (by decide)

/-- C4: Conflict-pair exclusivity in the v4 model: for every declared
conflicting pair `(i, j)` and every slot `t`, the total number of true
cells of `i` and `j` at `t` across all rooms is at most 1, so the two
courses never run concurrently even in different rooms. -/
theorem conflictPairExclusivity (inst : Instance) (X : Assignment)
    (h : SatisfiesV4 inst X) :
    ∀ p ∈ inst.shared, ∀ t < totalSlots inst,
      (((Finset.range inst.nRooms).filter fun r => X p.1 t r = true).card +
        ((Finset.range inst.nRooms).filter fun r => X p.2 t r = true).card ≤ 1) ∧
      (∀ r1 < inst.nRooms, ∀ r2 < inst.nRooms,
        X p.1 t r1 = true → X p.2 t r2 = false) := by
  intro p hp t ht
  have hcon := h.2.2.2.1 p hp t ht
  constructor
  · rw [← sum_oneHot_eq_card, ← sum_oneHot_eq_card]
    exact hcon
  · intro r1 hr1 r2 hr2 hX1
    cases hX2 : X p.2 t r2 with
    | false => rfl
    | true =>
      exfalso
      have h1 : (1 : Nat) ≤ ∑ r ∈ Finset.range inst.nRooms, oneHot (X p.1 t r) := by
        have hs := oneHot_le_sum (g := fun r => X p.1 t r)
          (Finset.mem_range.mpr hr1)
        simpa [oneHot, hX1] using hs
      have h2 : (1 : Nat) ≤ ∑ r ∈ Finset.range inst.nRooms, oneHot (X p.2 t r) := by
        have hs := oneHot_le_sum (g := fun r => X p.2 t r)
          (Finset.mem_range.mpr hr2)
        simpa [oneHot, hX2] using hs
      omega

theorem conflictPairExclusivity_witness :
    SatisfiesV4 instW XW ∧ XW 1 0 1 = false := by
  refine ⟨by decide, ?_⟩
  exact (conflictPairExclusivity instW XW (by decide) (0, 1) (by decide)
    0 (by decide)).2 0 (by decide) 1 (by decide) (by decide)

/-- C5: Minimum lecture quota in the v4 model: every course's total
count of true cells across all slots and rooms is at least its declared
minimum. -/
theorem minimumLectureQuota (inst : Instance) (X : Assignment)
    (h : SatisfiesV4 inst X) :
    ∀ c < inst.nCourses,
      inst.minLec c ≤
        (((Finset.range (totalSlots inst)) ×ˢ (Finset.range inst.nRooms)).filter
          (fun q => X c q.1 q.2 = true)).card := by
  intro c hc
  have hcon := h.2.2.2.2 c hc
  rw [sum_sum_eq_sum_product (g := fun t r => X c t r)] at hcon
  rw [← sum_oneHot_eq_card]
  exact hcon

theorem minimumLectureQuota_witness :
    SatisfiesV4 instW XW ∧
      instW.minLec 0 ≤
        (((Finset.range (totalSlots instW)) ×ˢ (Finset.range instW.nRooms)).filter
          (fun q => XW 0 q.1 q.2 = true)).card := by
  refine ⟨by decide, ?_⟩
  exact minimumLectureQuota instW XW (by decide) 0 (by decide)

/-- C6: Faculty exclusivity in the v4 model: at any slot, across all
courses taught by one faculty and all rooms, at most one cell is true,
so a faculty teaching several courses is never double-booked regardless
of room. -/
theorem facultyExclusivity (inst : Instance) (X : Assignment)
    (h : SatisfiesV4 inst X) :
    ∀ t < totalSlots inst, ∀ c1 < inst.nCourses, ∀ c2 < inst.nCourses,
      inst.facultyOf c1 = inst.facultyOf c2 →
      ∀ r1 < inst.nRooms, ∀ r2 < inst.nRooms,
        (c1, r1) ≠ (c2, r2) → X c1 t r1 = true → X c2 t r2 = false := by
  intro t ht c1 hc1 c2 hc2 hface r1 hr1 r2 hr2 hne hX1
  have hcon := h.2.2.1 t ht c1 hc1
  rw [sum_sum_eq_sum_product (g := fun c r => X c t r)] at hcon
  refine sum_oneHot_pair_le (g := fun q => X q.1 t q.2) hcon ?_ ?_ hne hX1
  · exact Finset.mem_product.mpr
      ⟨Finset.mem_filter.mpr ⟨Finset.mem_range.mpr hc1, rfl⟩,
        Finset.mem_range.mpr hr1⟩
  · exact Finset.mem_product.mpr
      ⟨Finset.mem_filter.mpr ⟨Finset.mem_range.mpr hc2, hface.symm⟩,
        Finset.mem_range.mpr hr2⟩

theorem facultyExclusivity_witness :
    SatisfiesV4 instW XW ∧ XW 1 0 0 = false := by
  refine ⟨by decide, ?_⟩
  exact facultyExclusivity instW XW (by decide) 0 (by decide) 0 (by decide)
    1 (by decide) (by decide) 0 (by decide) 0 (by decide) (by decide) (by decide)

/-! ## The assignment decoder (v4 output section, shared with v2/v3) -/

/-- A rendered timetable cell.  The output loops fill
`timetable[day][period]` with entry strings and the rendering step
shows the joined list, or the `"Free"` marker when the list is empty
(`cell_text = "\n".join(cell_entries) if cell_entries else "Free"`).
Entries are abstracted to their (course index, room index) pair; the
scripts format an entry as `f"{course_name} ({faculty_name}, {room_name})"`,
an injective rendering of that pair under the fixed name tables. -/
inductive Cell where
  | free : Cell
  | busy : List (Nat × Nat) → Cell
deriving DecidableEq

/-- The entry list collected for grid cell `(day, period)` (0-based) by
the v4 decode loop:
`for c: for t: for r: if solver.Value(x[c, t, r]) == 1:`
`  day = t // slots_per_day; period = t % slots_per_day`
`  timetable[day][period].append(...)`.
Entries arrive in the loop's (c, t, r) order.  (The v2 variant inserts
at the 1-based keys `t // slots_per_day + 1`, `t % slots_per_day + 1`
and reads them back 1-based, which is the same cell content.) -/
def cellEntries (inst : Instance) (X : Assignment) (day period : Nat) :
    List (Nat × Nat) :=
  (List.range inst.nCourses).flatMap fun c =>
    ((List.range (totalSlots inst)).filter fun t =>
        (t / inst.slotsPerDay == day) && (t % inst.slotsPerDay == period)).flatMap
      fun t =>
        ((List.range inst.nRooms).filter fun r => X c t r).map fun r => (c, r)

/-- Rendering of one grid cell: the `Free` marker exactly when the
entry list is empty, mirroring
`if cell_entries: cell_text = "\n".join(cell_entries) else: cell_text = "Free"`. -/
def renderCell (entries : List (Nat × Nat)) : Cell :=
  if entries.isEmpty then Cell.free else Cell.busy entries

/-- The full rendered day/period grid of the v4 output section
(`for day in range(days): for period in range(slots_per_day): ...`). -/
def decodeGrid (inst : Instance) (X : Assignment) : List (List Cell) :=
  (List.range inst.days).map fun day =>
    (List.range inst.slotsPerDay).map fun period =>
      renderCell (cellEntries inst X day period)

/-- The day number displayed for grid row `day`: `f"Day {day + 1}"`. -/
def dayLabel (day : Nat) : Nat := day + 1

/-- The period number displayed for grid column `period`: the column
headers run `P1 .. P{slots_per_day}`. -/
def periodLabel (period : Nat) : Nat := period + 1

/-- Characterization of decoder cell membership: `(c, r)` is listed in
grid cell `(day, period)` iff some in-range slot `t` mapping to that
cell has `X c t r = true`. -/
lemma mem_cellEntries (inst : Instance) (X : Assignment)
    (day period c r : Nat) :
    (c, r) ∈ cellEntries inst X day period ↔
      c < inst.nCourses ∧ r < inst.nRooms ∧
        ∃ t, t < totalSlots inst ∧ t / inst.slotsPerDay = day ∧
          t % inst.slotsPerDay = period ∧ X c t r = true := by
  simp only [cellEntries, List.mem_flatMap, List.mem_filter, List.mem_map,
    List.mem_range, Bool.and_eq_true, beq_iff_eq, Prod.mk.injEq]
  constructor
  · rintro ⟨c', hc', t, ⟨ht, hd, hp⟩, r', ⟨hr', hX⟩, hcc, hrr⟩
    subst hcc
    subst hrr
    exact ⟨hc', hr', t, ht, hd, hp, hX⟩
  · rintro ⟨hc, hr, t, ht, hd, hp, hX⟩
    exact ⟨c, hc, t, ⟨ht, hd, hp⟩, r, ⟨hr, hX⟩, rfl, rfl⟩

/-- The unique in-range slot of grid cell `(day, period)` is
`day * slotsPerDay + period`. -/
lemma slot_div_eq {spd day period : Nat} (hp : period < spd) :
    (day * spd + period) / spd = day := by
  have hpos : 0 < spd := by omega
  rw [Nat.mul_comm, Nat.mul_add_div hpos, Nat.div_eq_of_lt hp, Nat.add_zero]

lemma slot_mod_eq {spd day period : Nat} (hp : period < spd) :
    (day * spd + period) % spd = period := by
  rw [Nat.mul_comm, Nat.mul_add_mod, Nat.mod_eq_of_lt hp]

/-- C8: The decoder is a pure, deterministic projection: every true
cell at slot `t` is listed in the grid cell `(t / slotsPerDay,
t % slotsPerDay)`, displayed with the +1 day/period offset; every
`(day, period)` with zero true cells across all courses and rooms is
rendered as the `Free` marker; and decoding the same assignment twice
yields identical output. -/
theorem decoderProjection (inst : Instance) (X : Assignment) :
    (∀ c < inst.nCourses, ∀ t < totalSlots inst, ∀ r < inst.nRooms,
      X c t r = true →
        (c, r) ∈ cellEntries inst X (t / inst.slotsPerDay) (t % inst.slotsPerDay) ∧
        dayLabel (t / inst.slotsPerDay) = t / inst.slotsPerDay + 1 ∧
        periodLabel (t % inst.slotsPerDay) = t % inst.slotsPerDay + 1) ∧
    (∀ day < inst.days, ∀ period < inst.slotsPerDay,
      (∀ c < inst.nCourses, ∀ r < inst.nRooms,
          X c (day * inst.slotsPerDay + period) r = false) →
        renderCell (cellEntries inst X day period) = Cell.free) ∧
    decodeGrid inst X = decodeGrid inst X := by
  refine ⟨?_, ?_, rfl⟩
  · intro c hc t ht r hr hX
    exact ⟨(mem_cellEntries inst X _ _ c r).mpr
      ⟨hc, hr, t, ht, rfl, rfl, hX⟩, rfl, rfl⟩
  · intro day hday period hperiod hall
    have hnil : cellEntries inst X day period = [] := by
      rw [List.eq_nil_iff_forall_not_mem]
      rintro ⟨c, r⟩ hmem
      obtain ⟨hc, hr, t, ht, hd, hp, hX⟩ :=
        (mem_cellEntries inst X day period c r).mp hmem
      have hteq : t = day * inst.slotsPerDay + period := by
        calc t = inst.slotsPerDay * (t / inst.slotsPerDay) + t % inst.slotsPerDay :=
              (Nat.div_add_mod t inst.slotsPerDay).symm
        _ = inst.slotsPerDay * day + period := by rw [hd, hp]
        _ = day * inst.slotsPerDay + period := by rw [Nat.mul_comm]
      rw [hteq] at hX
      rw [hall c hc r hr] at hX
      exact Bool.false_ne_true hX
    rw [hnil]
    rfl

/-- A tiny instance used to witness the decoder theorems: one course,
one room, two slots, the lecture placed at slot 1 so that cell (0, 0)
is empty. -/
def instD : Instance where
  days := 1
  slotsPerDay := 2
  nRooms := 1
  nCourses := 1
  facultyOf := fun _ => "Dr.D"
  unavail := fun _ => []
  shared := []
  minLec := fun _ => 1

/-- Assignment for `instD`: the single lecture at (slot 1, room 0). -/
def XD : Assignment := fun c t r => c == 0 && t == 1 && r == 0

theorem decoderProjection_witness :
    XD 0 1 0 = true ∧ (0, 0) ∈ cellEntries instD XD 0 1 ∧
      renderCell (cellEntries instD XD 0 0) = Cell.free := by
  refine ⟨by decide, ?_, ?_⟩
  · exact ((decoderProjection instD XD).1 0 (by decide) 1 (by decide) 0
      (by decide) (by decide)).1
  · exact (decoderProjection instD XD).2.1 0 (by decide) 0 (by decide)
      (by decide)

/-- C10: In the v2 model the every-slot-used constraint forces at least
one true cell at every slot of every feasible assignment, so no grid
cell of the rendered timetable is ever the `Free` marker, even though
the renderer defines one for empty cells. -/
theorem everySlotUsedNoFreeCell (inst : Instance) (X : Assignment)
    (h : SatisfiesV2 inst X) :
    ∀ day < inst.days, ∀ period < inst.slotsPerDay,
      (∃ c < inst.nCourses, ∃ r < inst.nRooms,
        X c (day * inst.slotsPerDay + period) r = true) ∧
      renderCell (cellEntries inst X day period) ≠ Cell.free := by
  intro day hday period hperiod
  have hts : day * inst.slotsPerDay + period < totalSlots inst := by
    calc day * inst.slotsPerDay + period
        < day * inst.slotsPerDay + inst.slotsPerDay := by omega
    _ = (day + 1) * inst.slotsPerDay := by ring
    _ ≤ inst.days * inst.slotsPerDay := mul_le_mul_right' (by omega) inst.slotsPerDay
  have hused := h.2.1 (day * inst.slotsPerDay + period) hts
  have hex : ∃ c < inst.nCourses, ∃ r < inst.nRooms,
      X c (day * inst.slotsPerDay + period) r = true := by
    by_contra hno
    push_neg at hno
    have hz : (∑ c ∈ Finset.range inst.nCourses,
        ∑ r ∈ Finset.range inst.nRooms,
          oneHot (X c (day * inst.slotsPerDay + period) r)) = 0 := by
      refine Finset.sum_eq_zero fun c hc => Finset.sum_eq_zero fun r hr => ?_
      have hf := hno c (Finset.mem_range.mp hc) r (Finset.mem_range.mp hr)
      simp only [oneHot]
      rw [if_neg]
      simpa using hf
    omega
  refine ⟨hex, ?_⟩
  obtain ⟨c, hc, r, hr, hX⟩ := hex
  have hmem : (c, r) ∈ cellEntries inst X day period :=
    (mem_cellEntries inst X day period c r).mpr
      ⟨hc, hr, day * inst.slotsPerDay + period, hts,
        slot_div_eq hperiod, slot_mod_eq hperiod, hX⟩
  have hne : cellEntries inst X day period ≠ [] := List.ne_nil_of_mem hmem
  simp [renderCell, List.isEmpty_iff, hne]

/-- A tiny instance used to witness the v2 theorems: one course filling
both slots of the single day in the single room. -/
def instS : Instance where
  days := 1
  slotsPerDay := 2
  nRooms := 1
  nCourses := 1
  facultyOf := fun _ => "Dr.S"
  unavail := fun _ => []
  shared := []
  minLec := fun _ => 0

/-- Assignment for `instS`: the course occupies every slot in room 0. -/
def XS : Assignment := fun c t r => c == 0 && (t == 0 || t == 1) && r == 0

theorem everySlotUsedNoFreeCell_witness :
    SatisfiesV2 instS XS ∧
      renderCell (cellEntries instS XS 0 0) ≠ Cell.free := by
  refine ⟨by decide, ?_⟩
  exact (everySlotUsedNoFreeCell instS XS (by decide) 0 (by decide) 0
    (by decide)).2

/-! ## Outcomes surfaced by the scripts -/

/-- The termination statuses of the external CP-SAT solver that the
scripts compare against: `OPTIMAL`, `FEASIBLE`, `INFEASIBLE`,
`MODEL_INVALID`, and `UNKNOWN` (the status returned when the
`max_time_in_seconds` budget expires before the search either finds a
solution or exhausts the space). -/
inductive CpStatus where
  | unknown : CpStatus
  | modelInvalid : CpStatus
  | feasible : CpStatus
  | infeasible : CpStatus
  | optimal : CpStatus
deriving DecidableEq

/-- What the caller of each script observes. -/
inductive ReportKind where
  | timetable : ReportKind
  | noFeasibleMessage : ReportKind
deriving DecidableEq

/-- The v4 output branching (identical in v1-v3):
`if status == cp_model.OPTIMAL or status == cp_model.FEASIBLE:` render
the timetable, `else:` print the single message
`"❌ No feasible timetable found."`. -/
def reportV4 (status : CpStatus) : ReportKind :=
  match status with
  | CpStatus.optimal => ReportKind.timetable
  | CpStatus.feasible => ReportKind.timetable
  | _ => ReportKind.noFeasibleMessage

/-- C2 counterexample: a deadline expiry with no complete assignment
(status `UNKNOWN`) is reported identically to a proven infeasibility
(status `INFEASIBLE`) - both fall into the same `else` branch - so the
solve does not surface three distinct outcomes and does not report
timeout distinctly from infeasibility. -/
theorem reportCollapsesOutcomes_counterexample :
    reportV4 CpStatus.unknown = reportV4 CpStatus.infeasible ∧
      reportV4 CpStatus.unknown = ReportKind.noFeasibleMessage ∧
      reportV4 CpStatus.infeasible = ReportKind.noFeasibleMessage :=
  ⟨rfl, rfl, rfl⟩

/-- C2 amended: the scripts surface exactly two outcomes to the caller:
a rendered timetable when the solver status is `OPTIMAL` or `FEASIBLE`,
and one undifferentiated "no feasible timetable found" message for
every other status; in particular deadline expiry (`UNKNOWN`) and
proven infeasibility (`INFEASIBLE`) are indistinguishable and no
best-so-far assignment accompanies the failure message. -/
theorem reportTwoOutcomes :
    (∀ s : CpStatus,
        reportV4 s = ReportKind.timetable ∨
          reportV4 s = ReportKind.noFeasibleMessage) ∧
      reportV4 CpStatus.optimal = ReportKind.timetable ∧
      reportV4 CpStatus.feasible = ReportKind.timetable ∧
      reportV4 CpStatus.infeasible = ReportKind.noFeasibleMessage ∧
      reportV4 CpStatus.unknown = ReportKind.noFeasibleMessage ∧
      reportV4 CpStatus.modelInvalid = ReportKind.noFeasibleMessage := by
  refine ⟨fun s => ?_, rfl, rfl, rfl, rfl, rfl⟩
  cases s
  · exact Or.inr rfl
  · exact Or.inr rfl
  · exact Or.inl rfl
  · exact Or.inr rfl
  · exact Or.inl rfl

/-! ## The solve operation and Scenario B (pigeonhole infeasibility) -/

/-- An assignment of the bounded (in-range) decision grid only. -/
abbrev FinAssignment (inst : Instance) :=
  Fin inst.nCourses → Fin (totalSlots inst) → Fin inst.nRooms → Bool

/-- Extend a bounded assignment to all of `Nat × Nat × Nat`, with
`false` (no variable) outside the grid. -/
def liftFin (inst : Instance) (X : FinAssignment inst) : Assignment :=
  fun c t r =>
    if hc : c < inst.nCourses then
      if ht : t < totalSlots inst then
        if hr : r < inst.nRooms then X ⟨c, hc⟩ ⟨t, ht⟩ ⟨r, hr⟩
        else false
      else false
    else false

/-- Whether some assignment of the decision grid satisfies the v4
constraint set (decided by exhausting the finite grid). -/
def hasFeasibleV4 (inst : Instance) : Bool :=
  decide (∃ X : FinAssignment inst, SatisfiesV4 inst (liftFin inst X))

/-- The two verdicts of a completed search. -/
inductive Outcome where
  | feasible : Outcome
  | infeasible : Outcome
deriving DecidableEq

/-- Modelled from the spec: the repository delegates search to the
external `cp_model.CpSolver`, whose code is not part of the repository.
Per the spec's search-engine contract, a completed solve is `Feasible`
exactly when the compiled constraint set admits a satisfying
assignment, and a search-space exhaustion with no solution is a proven
`Infeasible` (the deadline, assumed not to expire, is ignored here). -/
def solveV4 (inst : Instance) : Outcome :=
  if hasFeasibleV4 inst then Outcome.feasible else Outcome.infeasible

/-- Restrict an assignment to the in-range decision grid. -/
def restrictFin (inst : Instance) (X : Assignment) : FinAssignment inst :=
  fun c t r => X c.val t.val r.val

lemma liftFin_restrict_eq (inst : Instance) (X : Assignment) {c t r : Nat}
    (hc : c < inst.nCourses) (ht : t < totalSlots inst)
    (hr : r < inst.nRooms) :
    liftFin inst (restrictFin inst X) c t r = X c t r := by
  simp [liftFin, restrictFin, hc, ht, hr]

/-- The v4 constraint set only inspects in-range cells, so satisfaction
survives zeroing everything outside the grid (the shared pairs must
name in-range courses, as `courses.index` guarantees in the source). -/
lemma satisfiesV4_liftFin_restrict (inst : Instance) (X : Assignment)
    (hsh : ∀ p ∈ inst.shared, p.1 < inst.nCourses ∧ p.2 < inst.nCourses)
    (h : SatisfiesV4 inst X) :
    SatisfiesV4 inst (liftFin inst (restrictFin inst X)) := by
  obtain ⟨h1, h2, h3, h4, h5⟩ := h
  refine ⟨?_, ?_, ?_, ?_, ?_⟩
  · intro t ht r hr
    calc (∑ c ∈ Finset.range inst.nCourses,
          oneHot (liftFin inst (restrictFin inst X) c t r))
        = ∑ c ∈ Finset.range inst.nCourses, oneHot (X c t r) :=
          Finset.sum_congr rfl fun c hc => by
            rw [liftFin_restrict_eq inst X (Finset.mem_range.mp hc) ht hr]
    _ ≤ 1 := h1 t ht r hr
  · intro c hc t ht
    calc (∑ r ∈ Finset.range inst.nRooms,
          oneHot (liftFin inst (restrictFin inst X) c t r))
        = ∑ r ∈ Finset.range inst.nRooms, oneHot (X c t r) :=
          Finset.sum_congr rfl fun r hr => by
            rw [liftFin_restrict_eq inst X hc ht (Finset.mem_range.mp hr)]
    _ ≤ 1 := h2 c hc t ht
  · intro t ht c0 hc0
    calc (∑ c ∈ (Finset.range inst.nCourses).filter
          (fun c => inst.facultyOf c = inst.facultyOf c0),
          ∑ r ∈ Finset.range inst.nRooms,
            oneHot (liftFin inst (restrictFin inst X) c t r))
        = ∑ c ∈ (Finset.range inst.nCourses).filter
            (fun c => inst.facultyOf c = inst.facultyOf c0),
            ∑ r ∈ Finset.range inst.nRooms, oneHot (X c t r) := by
          refine Finset.sum_congr rfl fun c hc => ?_
          have hcr := Finset.mem_range.mp (Finset.mem_filter.mp hc).1
          exact Finset.sum_congr rfl fun r hr => by
            rw [liftFin_restrict_eq inst X hcr ht (Finset.mem_range.mp hr)]
    _ ≤ 1 := h3 t ht c0 hc0
  · intro p hp t ht
    have hp1 := (hsh p hp).1
    have hp2 := (hsh p hp).2
    have e1 : (∑ r ∈ Finset.range inst.nRooms,
        oneHot (liftFin inst (restrictFin inst X) p.1 t r)) =
          ∑ r ∈ Finset.range inst.nRooms, oneHot (X p.1 t r) :=
      Finset.sum_congr rfl fun r hr => by
        rw [liftFin_restrict_eq inst X hp1 ht (Finset.mem_range.mp hr)]
    have e2 : (∑ r ∈ Finset.range inst.nRooms,
        oneHot (liftFin inst (restrictFin inst X) p.2 t r)) =
          ∑ r ∈ Finset.range inst.nRooms, oneHot (X p.2 t r) :=
      Finset.sum_congr rfl fun r hr => by
        rw [liftFin_restrict_eq inst X hp2 ht (Finset.mem_range.mp hr)]
    rw [e1, e2]
    exact h4 p hp t ht
  · intro c hc
    have e : (∑ t ∈ Finset.range (totalSlots inst),
        ∑ r ∈ Finset.range inst.nRooms,
          oneHot (liftFin inst (restrictFin inst X) c t r)) =
          ∑ t ∈ Finset.range (totalSlots inst),
            ∑ r ∈ Finset.range inst.nRooms, oneHot (X c t r) :=
      Finset.sum_congr rfl fun t ht =>
        Finset.sum_congr rfl fun r hr => by
          rw [liftFin_restrict_eq inst X hc (Finset.mem_range.mp ht)
            (Finset.mem_range.mp hr)]
    rw [e]
    exact h5 c hc

/-- The modelled solve is `Feasible` exactly when some (unrestricted)
assignment satisfies the v4 constraint set: the finite search behind
`hasFeasibleV4` misses nothing. -/
lemma solveV4_feasible_iff (inst : Instance)
    (hsh : ∀ p ∈ inst.shared, p.1 < inst.nCourses ∧ p.2 < inst.nCourses) :
    solveV4 inst = Outcome.feasible ↔ ∃ X : Assignment, SatisfiesV4 inst X := by
  constructor
  · intro h
    cases hb : hasFeasibleV4 inst with
    | false =>
      exfalso
      unfold solveV4 at h
      rw [hb] at h
      simp at h
    | true =>
      have hp : ∃ Xf : FinAssignment inst, SatisfiesV4 inst (liftFin inst Xf) := by
        unfold hasFeasibleV4 at hb
        exact of_decide_eq_true hb
      obtain ⟨Xf, hXf⟩ := hp
      exact ⟨liftFin inst Xf, hXf⟩
  · rintro ⟨X, hX⟩
    have hfin := satisfiesV4_liftFin_restrict inst X hsh hX
    have hb : hasFeasibleV4 inst = true := by
      unfold hasFeasibleV4
      exact decide_eq_true ⟨restrictFin inst X, hfin⟩
    unfold solveV4
    rw [hb]
    simp

/-- Scenario B of the spec: 1 room, 2 slots, 3 courses, each with
minimum quota 1 (distinct faculties, no conflict pairs). -/
def instB : Instance where
  days := 1
  slotsPerDay := 2
  nRooms := 1
  nCourses := 3
  facultyOf := fun c => toString c
  unavail := fun _ => []
  shared := []
  minLec := fun _ => 1

/-- C7: Scenario B is a pigeonhole infeasibility: with one room, two
slots and three courses each requiring one lecture, the room
exclusivity and quota constraints admit no satisfying assignment, and
the solve returns `Infeasible`. -/
theorem scenarioBInfeasible : solveV4 instB = Outcome.infeasible := by decide

/-! ## Model construction (v4 input data and constraint building) -/

/-- The raw input data of the v4 script: day/period counts, room and
course name lists, the `faculty`, `shared_students` and
`course_min_lectures` tables (Python dicts modelled as association
lists; the literals in the scripts have pairwise-distinct keys). -/
structure BuildInput where
  days : Nat
  slotsPerDay : Nat
  rooms : List String
  courses : List String
  facultyMap : List (String × String)
  sharedStudents : List (String × String)
  minLecturesMap : List (String × Nat)

/-- The untyped runtime errors Python raises on a failed lookup:
`KeyError` for a missing dict key, `ValueError` for
`list.index` on an absent element.  The scripts define no error type
of their own - in particular no `ValidationError`. -/
inductive PyError where
  | keyError : String → PyError
  | valueError : String → PyError
deriving DecidableEq

/-- Python dict lookup `m[k]` on an association list. -/
def assoc {β : Type} (k : String) : List (String × β) → Option β
  | [] => none
  | (a, b) :: l => if a = k then some b else assoc k l

/-- Python `list.index(a)`: position of the first occurrence. -/
def idxOf (a : String) : List String → Option Nat
  | [] => none
  | b :: l => if b = a then some 0 else (idxOf a l).map (· + 1)

/-- Run a fallible lookup over each element of a list, stopping at the
first error, as the constraint-building `for` loops do. -/
def mapEx {α β : Type} (f : α → Except PyError β) :
    List α → Except PyError (List β)
  | [] => Except.ok []
  | a :: l =>
    match f a with
    | Except.error e => Except.error e
    | Except.ok b =>
      match mapEx f l with
      | Except.error e => Except.error e
      | Except.ok bs => Except.ok (b :: bs)

/-- `faculty[courses[c]]` (constraint 3): `KeyError` on a dangling
faculty reference. -/
def lookupFacultyEx (m : List (String × String)) (cname : String) :
    Except PyError String :=
  match assoc cname m with
  | some f => Except.ok f
  | none => Except.error (PyError.keyError cname)

/-- `courses.index(name)` (constraint 4): `ValueError` if the name is
not a listed course. -/
def idxEx (courses : List String) (cname : String) : Except PyError Nat :=
  match idxOf cname courses with
  | some i => Except.ok i
  | none => Except.error (PyError.valueError cname)

/-- Resolve one `shared_students` pair to course indices. -/
def pairIdxEx (courses : List String) (p : String × String) :
    Except PyError (Nat × Nat) :=
  match idxEx courses p.1 with
  | Except.error e => Except.error e
  | Except.ok i =>
    match idxEx courses p.2 with
    | Except.error e => Except.error e
    | Except.ok j => Except.ok (i, j)

/-- `course_min_lectures[cname]` (constraint 5): `KeyError` on a course
missing from the quota table. -/
def lookupMinEx (m : List (String × Nat)) (cname : String) :
    Except PyError Nat :=
  match assoc cname m with
  | some n => Except.ok n
  | none => Except.error (PyError.keyError cname)

/-- The v4 model-construction phase (input data, variable creation and
constraint building, lines 411-508), which is everything that runs
before `solver.Solve`.  Variable creation never fails; the only
fallible steps are the three lookup families performed by the
constraint loops, in source order: the `faculty[courses[c]]` lookups of
constraint 3, the `courses.index` calls of constraint 4, and the
`course_min_lectures[cname]` lookups of constraint 5.  The source
performs no validation of its own: no check that a quota fits in
`days * slots_per_day`, no range check of any kind, and no
`ValidationError` (the name appears nowhere in the source). -/
def buildV4 (inp : BuildInput) : Except PyError Instance :=
  match mapEx (lookupFacultyEx inp.facultyMap) inp.courses with
  | Except.error e => Except.error e
  | Except.ok facNames =>
    match mapEx (pairIdxEx inp.courses) inp.sharedStudents with
    | Except.error e => Except.error e
    | Except.ok sharedIdx =>
      match mapEx (lookupMinEx inp.minLecturesMap) inp.courses with
      | Except.error e => Except.error e
      | Except.ok mins =>
        Except.ok
          { days := inp.days
            slotsPerDay := inp.slotsPerDay
            nRooms := inp.rooms.length
            nCourses := inp.courses.length
            facultyOf := fun c => facNames.getD c ""
            unavail := fun _ => []
            shared := sharedIdx
            minLec := fun c => mins.getD c 0 }

/-- An input whose single course demands 41 weekly lectures although
only `5 * 8 = 40` slots exist: a quota that is infeasible on its face. -/
def inputQuotaTooBig : BuildInput where
  days := 5
  slotsPerDay := 8
  rooms := ["R1"]
  courses := ["AI"]
  facultyMap := [("AI", "Dr.A")]
  sharedStudents := []
  minLecturesMap := [("AI", 41)]

/-- C9 counterexample: model construction accepts a course whose
minimum-lecture quota (41) exceeds the total slot count (40) without
raising anything, so construction does not fail with a
`ValidationError` on an infeasible-on-its-face quota. -/
theorem buildAcceptsInfeasibleQuota_counterexample :
    (buildV4 inputQuotaTooBig).isOk = true ∧
      inputQuotaTooBig.days * inputQuotaTooBig.slotsPerDay <
        (assoc "AI" inputQuotaTooBig.minLecturesMap).getD 0 := by
  exact ⟨rfl, by decide⟩

lemma exceptIsOk_iff {β : Type} (e : Except PyError β) :
    e.isOk = true ↔ ∃ b, e = Except.ok b := by
  cases e with
  | error e => simp [Except.isOk, Except.toBool]
  | ok b => simp [Except.isOk, Except.toBool]

lemma mapEx_isOk {α β : Type} (f : α → Except PyError β) (l : List α)
    (h : ∀ a ∈ l, (f a).isOk = true) : ∃ bs, mapEx f l = Except.ok bs := by
  induction l with
  | nil => exact ⟨[], rfl⟩
  | cons a l ih =>
    obtain ⟨b, hb⟩ := (exceptIsOk_iff (f a)).mp (h a (List.mem_cons_self a l))
    obtain ⟨bs, hbs⟩ := ih fun x hx => h x (List.mem_cons_of_mem a hx)
    exact ⟨b :: bs, by simp [mapEx, hb, hbs]⟩

lemma idxOf_isSome {a : String} {l : List String} (h : a ∈ l) :
    (idxOf a l).isSome = true := by
  induction l with
  | nil => cases h
  | cons b l ih =>
    by_cases hba : b = a
    · simp [idxOf, hba]
    · have hmem : a ∈ l := by
        rcases List.mem_cons.mp h with h1 | h2
        · exact absurd h1.symm hba
        · exact h2
      simp [idxOf, hba, ih hmem]

/-- C9 amended: model construction performs no validation.  It succeeds
whenever every course name resolves in the faculty map and the
minimum-lectures map and every shared pair names listed courses - with
no condition whatsoever on quota sizes or slot ranges, so an
infeasible-on-its-face quota is accepted silently (see the witness,
which builds `inputQuotaTooBig` successfully).  The only build-time
failures are the untyped lookup errors raised mid-construction by the
constraint loops; no typed `ValidationError` exists and valid input
yields only the immutable index tables. -/
theorem buildPerformsNoValidation (inp : BuildInput)
    (hfac : ∀ cname ∈ inp.courses,
      (assoc cname inp.facultyMap).isSome = true)
    (hsh : ∀ p ∈ inp.sharedStudents, p.1 ∈ inp.courses ∧ p.2 ∈ inp.courses)
    (hmin : ∀ cname ∈ inp.courses,
      (assoc cname inp.minLecturesMap).isSome = true) :
    (buildV4 inp).isOk = true := by
  have hfacOk : ∀ cname ∈ inp.courses,
      (lookupFacultyEx inp.facultyMap cname).isOk = true := by
    intro cname hc
    obtain ⟨f, hf⟩ := Option.isSome_iff_exists.mp (hfac cname hc)
    simp [lookupFacultyEx, hf, Except.isOk, Except.toBool]
  have hshOk : ∀ p ∈ inp.sharedStudents,
      (pairIdxEx inp.courses p).isOk = true := by
    intro p hp
    obtain ⟨i, hi⟩ := Option.isSome_iff_exists.mp (idxOf_isSome (hsh p hp).1)
    obtain ⟨j, hj⟩ := Option.isSome_iff_exists.mp (idxOf_isSome (hsh p hp).2)
    simp [pairIdxEx, idxEx, hi, hj, Except.isOk, Except.toBool]
  have hminOk : ∀ cname ∈ inp.courses,
      (lookupMinEx inp.minLecturesMap cname).isOk = true := by
    intro cname hc
    obtain ⟨n, hn⟩ := Option.isSome_iff_exists.mp (hmin cname hc)
    simp [lookupMinEx, hn, Except.isOk, Except.toBool]
  obtain ⟨facNames, h1⟩ :=
    mapEx_isOk (lookupFacultyEx inp.facultyMap) inp.courses hfacOk
  obtain ⟨sharedIdx, h2⟩ :=
    mapEx_isOk (pairIdxEx inp.courses) inp.sharedStudents hshOk
  obtain ⟨mins, h3⟩ :=
    mapEx_isOk (lookupMinEx inp.minLecturesMap) inp.courses hminOk
  simp [buildV4, h1, h2, h3, Except.isOk, Except.toBool]

theorem buildPerformsNoValidation_witness :
    40 < (assoc "AI" inputQuotaTooBig.minLecturesMap).getD 0 ∧
      (buildV4 inputQuotaTooBig).isOk = true := by
  refine ⟨by decide, ?_⟩
  exact buildPerformsNoValidation inputQuotaTooBig (by decide) (by decide)
    (by decide)

end SIH
